import Mathlib

/-!
# GPS NMEA track processor — verification development

Shallow embedding of `src/main.py` (a GPS NMEA track processor: coordinate
decoding, sentence recovery, GPRMC/GPGGA decoding, the ingestion scan,
outlier filtering, stop/turn detection, trip-duration computation), with
theorems settling the specification claims.

Modelling conventions:
* Python strings are `List Char`; Python floats are `ℚ` (the claims only
  involve exact decimal arithmetic, within stated tolerances);
  `datetime` values are `ℚ` seconds on an absolute axis, so that
  `timedelta.total_seconds()` is plain subtraction.
* Python's builtin `float()` / `int()` are modelled on the plain decimal /
  integer literal forms (`pyFloat?` / `pyInt?`); `datetime.strptime` with
  format `%d%m%y%H%M%S` is an explicit function parameter `stp` of the
  decoders that use it (no claim depends on its internals).
* The great-circle haversine distance uses real `sin`/`cos`/`arctan`/`sqrt`,
  hence lives in `ℝ`.
-/

namespace GPS

/-! ## Python string primitives -/

/-- ASCII whitespace stripped by Python's `str.strip()`. -/
def isPySpace (c : Char) : Bool :=
  c = ' ' ∨ c = '\t' ∨ c = '\n' ∨ c = '\r' ∨ c = '\x0b' ∨ c = '\x0c'

/-- `s.strip()`: drop leading and trailing whitespace. -/
def pyStrip (s : List Char) : List Char :=
  ((s.dropWhile isPySpace).reverse.dropWhile isPySpace).reverse

/-- `s.startswith(p)` for `List Char`. -/
def startsWithChars (p s : List Char) : Bool :=
  match p, s with
  | [], _ => true
  | _ :: _, [] => false
  | a :: ps, b :: cs => a = b && startsWithChars ps cs

/-- `s.split(',')`: split on commas, keeping empty fields
(`"".split(',') == [""]`). -/
def splitComma : List Char → List (List Char)
  | [] => [[]]
  | c :: rest =>
    if c = ',' then [] :: splitComma rest
    else
      match splitComma rest with
      | [] => [[c]]
      | f :: r => (c :: f) :: r

/-- Value of a digit string (most significant first). -/
def digitsToNat (ds : List Char) : ℕ :=
  ds.foldl (fun n c => 10 * n + (c.toNat - 48)) 0

/-- Model of Python's `float(s)` on plain decimal literals:
optional sign, then digits with at most one decimal point and at least one
digit; every other string is "not numeric" (`none`). -/
def pyFloat? (s : List Char) : Option ℚ :=
  let signRest : ℚ × List Char :=
    match s with
    | '-' :: r => (-1, r)
    | '+' :: r => (1, r)
    | r => (1, r)
  let sign := signRest.1
  let rest := signRest.2
  let intPart := rest.takeWhile Char.isDigit
  let rest2 := rest.dropWhile Char.isDigit
  match rest2 with
  | [] => if intPart = [] then none else some (sign * digitsToNat intPart)
  | '.' :: frac =>
    if frac.all Char.isDigit ∧ (intPart ≠ [] ∨ frac ≠ []) then
      some (sign * ((digitsToNat intPart : ℚ) +
        (digitsToNat frac : ℚ) / (10 ^ frac.length)))
    else none
  | _ => none

/-- Model of Python's `int(s)`: optional sign then at least one digit. -/
def pyInt? (s : List Char) : Option ℤ :=
  let signRest : ℤ × List Char :=
    match s with
    | '-' :: r => (-1, r)
    | '+' :: r => (1, r)
    | r => (1, r)
  let sign := signRest.1
  let rest := signRest.2
  if rest ≠ [] ∧ rest.all Char.isDigit then some (sign * digitsToNat rest)
  else none

/-- Python's `int()` applied to a rational: truncation toward zero. -/
def ratTrunc (q : ℚ) : ℤ := if 0 ≤ q then ⌊q⌋ else ⌈q⌉

/-! ## Coordinate Codec (`parse_nmea_coordinate`, src/main.py:274-308) -/

/-- `parse_nmea_coordinate(coord_str, direction)`: convert an NMEA
`DDDMM.MMMM` field plus hemisphere into signed decimal degrees; `none` when
either input is empty or the coordinate is not numeric. -/
def parse_nmea_coordinate (coord_str direction : List Char) : Option ℚ :=
  if coord_str = [] ∨ direction = [] then none
  else
    match pyFloat? coord_str with
    | none => none
    | some coord_float =>
      let degrees : ℤ := ratTrunc (coord_float / 100)
      let minutes : ℚ := coord_float - (degrees * 100)
      let decimal : ℚ := degrees + minutes / 60
      some (if direction = ['S'] ∨ direction = ['W'] then -decimal else decimal)

/-! ## Sentence Recovery (`split_double_sentences`, src/main.py:231-271) -/

/-- ASCII model of the regex word character `\w`. -/
def isWordChar (c : Char) : Bool := c.isAlpha || c.isDigit || c = '_'

/-- Does the regex `\$GP\w{3}` match at offset `i` of `line`? -/
def markerAt (line : List Char) (i : ℕ) : Bool :=
  match line.drop i with
  | '$' :: 'G' :: 'P' :: a :: b :: c :: _ =>
    isWordChar a && isWordChar b && isWordChar c
  | _ => false

/-- Start offsets of all matches of `\$GP\w{3}` in `line`, in order
(`re.finditer`; matches of this pattern can never overlap, since the only
`'$'` inside a match is its first character). -/
def markerPositions (line : List Char) : List ℕ :=
  (List.range line.length).filter (fun i => markerAt line i)

/-- `s.rstrip('*')`: drop trailing `'*'` characters. -/
def rstripStar (s : List Char) : List Char :=
  (s.reverse.dropWhile (fun c => c = '*')).reverse

/-- The loop body of `split_double_sentences` over the match-position list:
each non-final segment runs to the next match start and is `rstrip('*')`-ed;
the final segment runs to end of line; each segment is kept, whitespace
stripped, only when non-empty after stripping. -/
def splitSegs (line : List Char) : List ℕ → List (List Char)
  | [] => []
  | [p] =>
    let s := pyStrip (line.drop p)
    if s = [] then [] else [s]
  | p :: q :: rest =>
    let s := pyStrip (rstripStar ((line.drop p).take (q - p)))
    (if s = [] then [] else [s]) ++ splitSegs line (q :: rest)

/-- `split_double_sentences(line)`: one sentence per `$GP\w{3}` marker when
two or more are present, the line itself otherwise. -/
def split_double_sentences (line : List Char) : List (List Char) :=
  let ms := markerPositions line
  if ms.length = 1 then [line]
  else if 2 ≤ ms.length then splitSegs line ms
  else [line]

/-! ## Fix and quality records -/

/-- One decoded GPS point (the Python fix dictionary): position, motion and
timestamp from GPRMC, plus the three optional quality fields merged from the
most recent GPGGA fragment (`none` = key absent / `None`). -/
structure Fix where
  lat : ℚ
  lon : ℚ
  speed : ℚ
  heading : Option ℚ
  datetime : Option ℚ
  hdop : Option ℚ
  sats : Option ℤ
  fix : Option ℤ
deriving DecidableEq, Repr

instance : Inhabited Fix := ⟨⟨0, 0, 0, none, none, none, none, none⟩⟩

/-- A decoded GPGGA quality fragment (the Python `gga` dictionary). -/
structure Gga where
  lat : ℚ
  lon : ℚ
  fix : ℤ
  sats : ℤ
  hdop : Option ℚ
deriving DecidableEq, Repr

/-! ## Kind-A decoder (`parse_gprmc`, src/main.py:310-370)

`stp` models `datetime.strptime(date ++ time, "%d%m%y%H%M%S")`: it receives
the concatenated date-and-truncated-time string and returns the absolute
timestamp in seconds, or `none` on parse failure. -/

/-- `parse_gprmc(line)`. -/
def parse_gprmc (stp : List Char → Option ℚ) (line : List Char) : Option Fix :=
  let parts := splitComma (pyStrip line)
  if parts.length < 10 ∨ parts.getD 2 [] ≠ ['A'] then none
  else
    let time_str := parts.getD 1 []
    let lat_str := parts.getD 3 []
    let lat_dir := parts.getD 4 []
    let lon_str := parts.getD 5 []
    let lon_dir := parts.getD 6 []
    let speed_knots := parts.getD 7 []
    let course := parts.getD 8 []
    let date_str := parts.getD 9 []
    if time_str = [] ∨ lat_str = [] ∨ lat_dir = [] ∨ lon_str = [] ∨
        lon_dir = [] ∨ date_str = [] then none
    else
      match parse_nmea_coordinate lat_str lat_dir,
          parse_nmea_coordinate lon_str lon_dir with
      | some lat, some lon =>
        let speed : ℚ := (pyFloat? speed_knots).getD 0
        let heading : Option ℚ := pyFloat? course
        let dt : Option ℚ := stp (date_str ++ time_str.takeWhile (fun c => c ≠ '.'))
        some ⟨lat, lon, speed, heading, dt, none, none, none⟩
      | _, _ => none

/-! ## Kind-B decoder (`parse_gpgga`, src/main.py:372-428) -/

/-- `parse_gpgga(line)`. -/
def parse_gpgga (line : List Char) : Option Gga :=
  let parts := splitComma (pyStrip line)
  if parts.length < 10 then none
  else
    let lat_str := parts.getD 2 []
    let lat_dir := parts.getD 3 []
    let lon_str := parts.getD 4 []
    let lon_dir := parts.getD 5 []
    if lat_str = [] ∨ lat_dir = [] ∨ lon_str = [] ∨ lon_dir = [] then none
    else
      match parse_nmea_coordinate lat_str lat_dir,
          parse_nmea_coordinate lon_str lon_dir with
      | some lat, some lon =>
        let fix_quality : ℤ := (pyInt? (parts.getD 6 [])).getD 0
        let num_sats : ℤ := (pyInt? (parts.getD 7 [])).getD 0
        let hdop : Option ℚ := pyFloat? (parts.getD 8 [])
        some ⟨lat, lon, fix_quality, num_sats, hdop⟩
      | _, _ => none

/-! ## Track Ingestor (`read_gps_file`, src/main.py:430-484) -/

/-- Merge the most recent GPGGA fragment's quality fields onto a freshly
decoded fix (`data['hdop'/'sats'/'fix'] = last_gpgga.get(...)`). -/
def mergeQuality (d : Fix) (g : Gga) : Fix :=
  { d with hdop := g.hdop, sats := some g.sats, fix := some g.fix }

/-- Merge when a most-recent fragment exists, identity otherwise
(`if data and last_gpgga`). -/
def mergeLast (d : Fix) : Option Gga → Fix
  | some g => mergeQuality d g
  | none => d

/-- The per-scan state: accumulated track and most recent GPGGA fragment. -/
structure ScanState where
  points : List Fix
  lastGga : Option Gga
deriving Repr

/-- Processing of one recovered sentence inside `read_gps_file`'s loop. -/
def processSentence (stp : List Char → Option ℚ) (st : ScanState)
    (s : List Char) : ScanState :=
  if startsWithChars ("$GPRMC".toList) s then
    match parse_gprmc stp s with
    | some d => { st with points := st.points ++ [mergeLast d st.lastGga] }
    | none => st
  else if startsWithChars ("$GPGGA".toList) s then
    match parse_gpgga s with
    | some g => { st with lastGga := some g }
    | none => st
  else st

/-- Fold a sentence list through the scan, starting from a given state. -/
def scanFrom (stp : List Char → Option ℚ) (st : ScanState)
    (sentences : List (List Char)) : ScanState :=
  sentences.foldl (processSentence stp) st

/-- Line pre-filtering and sentence recovery of `read_gps_file`: strip each
line, skip it when empty or not starting with `$GP`, otherwise split
double sentences. -/
def extractSentences (lines : List (List Char)) : List (List Char) :=
  lines.flatMap (fun l =>
    let l' := pyStrip l
    if l' = [] ∨ ¬ startsWithChars ("$GP".toList) l' then []
    else split_double_sentences l')

/-- `read_gps_file`: the ordered list of fixes produced by scanning a file's
lines (the fragment cursor starts empty for each file). -/
def read_gps_file (stp : List Char → Option ℚ) (lines : List (List Char)) :
    List Fix :=
  (scanFrom stp ⟨[], none⟩ (extractSentences lines)).points

/-- How one sentence updates the most-recent-GPGGA cursor, mirroring the
dispatch order of `processSentence` (GPRMC sentences and unrecognized
sentences leave it unchanged; a GPGGA sentence replaces it on successful
decode only). -/
def ggaStep (acc : Option Gga) (s : List Char) : Option Gga :=
  if startsWithChars ("$GPRMC".toList) s then acc
  else if startsWithChars ("$GPGGA".toList) s then
    match parse_gpgga s with
    | some g => some g
    | none => acc
  else acc

/-- The most recent successfully decoded GPGGA fragment after a sentence
list. -/
def lastGoodGga (sentences : List (List Char)) : Option Gga :=
  sentences.foldl ggaStep none

/-! ## Angle helpers (`normalize_angle` / `angle_difference`,
src/main.py:487-516) -/

/-- The first loop of `normalize_angle`: `while angle < 0: angle += 360`,
in exact rational arithmetic. This is an idealization: in the source the
loop variable is an IEEE binary64 double, whose addition absorbs the step
for very large negative inputs (`-1e300 + 360 == -1e300`, since adjacent
doubles at that magnitude differ by ≈ 1.6e284), so the source loop does
not terminate there; over `ℚ` every iteration progresses by a full turn.
The idealization agrees with the source on the heading-sized values all
value-level facts below are used at. -/
def addLoop (a : ℚ) : ℚ :=
  if a < 0 then addLoop (a + 360) else a
termination_by (⌈-a / 360⌉).toNat
decreasing_by
  have h1 : ⌈-(a + 360) / 360⌉ = ⌈-a / 360⌉ + -1 := by
    rw [show -(a + 360) / 360 = -a / 360 + (-1 : ℤ) by push_cast; ring,
      Int.ceil_add_int]
  have h2 : 1 ≤ ⌈-a / 360⌉ := by
    rw [Int.one_le_ceil_iff]
    exact div_pos (by linarith) (by norm_num)
  omega

/-- The second loop of `normalize_angle`: `while angle >= 360: angle -= 360`,
in exact rational arithmetic — the same idealization as `addLoop`: in the
source `1e300 - 360` rounds back to `1e300`, so the double-valued loop
hangs on such inputs, while the rational loop always progresses. -/
def subLoop (a : ℚ) : ℚ :=
  if 360 ≤ a then subLoop (a - 360) else a
termination_by (⌊a / 360⌋).toNat
decreasing_by
  have h1 : ⌊(a - 360) / 360⌋ = ⌊a / 360⌋ + -1 := by
    rw [show (a - 360) / 360 = a / 360 + (-1 : ℤ) by push_cast; ring,
      Int.floor_add_int]
  have h2 : 1 ≤ ⌊a / 360⌋ := by
    rw [Int.le_floor]
    push_cast
    linarith
  omega

/-- `normalize_angle(angle)`: bring a heading into `[0, 360)` by repeatedly
adding, then subtracting, 360. -/
def normalize_angle (a : ℚ) : ℚ := subLoop (addLoop a)

/-- `angle_difference(prev_heading, curr_heading)`: shortest signed angular
difference between two headings. -/
def angle_difference (prev_heading curr_heading : ℚ) : ℚ :=
  let prev := normalize_angle prev_heading
  let curr := normalize_angle curr_heading
  let diff := curr - prev
  if diff < -180 then diff + 360
  else if 180 < diff then diff - 360
  else diff

/-! ## Great-circle distance (`haversine_distance`, src/main.py:62-90) -/

/-- `math.atan2(y, x)`. -/
noncomputable def atan2 (y x : ℝ) : ℝ :=
  if 0 < x then Real.arctan (y / x)
  else if x < 0 ∧ 0 ≤ y then Real.arctan (y / x) + Real.pi
  else if x < 0 ∧ y < 0 then Real.arctan (y / x) - Real.pi
  else if x = 0 ∧ 0 < y then Real.pi / 2
  else if x = 0 ∧ y < 0 then -(Real.pi / 2)
  else 0

/-- `haversine_distance(lat1, lon1, lat2, lon2)` in kilometres
(Earth radius 6371 km, standard haversine). -/
noncomputable def haversine_distance (lat1 lon1 lat2 lon2 : ℚ) : ℝ :=
  let R : ℝ := 6371
  let lat1_rad : ℝ := (lat1 : ℝ) * (Real.pi / 180)
  let lon1_rad : ℝ := (lon1 : ℝ) * (Real.pi / 180)
  let lat2_rad : ℝ := (lat2 : ℝ) * (Real.pi / 180)
  let lon2_rad : ℝ := (lon2 : ℝ) * (Real.pi / 180)
  let dlat := lat2_rad - lat1_rad
  let dlon := lon2_rad - lon1_rad
  let a := Real.sin (dlat / 2) ^ 2 +
    Real.cos lat1_rad * Real.cos lat2_rad * Real.sin (dlon / 2) ^ 2
  let c := 2 * atan2 (Real.sqrt a) (Real.sqrt (1 - a))
  R * c

/-! ## Outlier rejection (`filter_position_outliers`, src/main.py:518-563) -/

open Classical in
/-- The loop of `filter_position_outliers`: `prev` is the last accepted fix
(`cleaned[-1]`); a candidate is accepted unconditionally when either side
lacks a timestamp, dropped when elapsed time is `≤ 0` or the implied speed
exceeds the ceiling, and otherwise accepted and made the new `prev`. -/
noncomputable def filterLoop (max_speed_kmh : ℝ) (prev : Fix) :
    List Fix → List Fix
  | [] => []
  | curr :: rest =>
    match prev.datetime, curr.datetime with
    | some tp, some tc =>
      let dt : ℚ := tc - tp
      if dt ≤ 0 then filterLoop max_speed_kmh prev rest
      else
        let dist_km := haversine_distance prev.lat prev.lon curr.lat curr.lon
        let speed_kmh := dist_km / ((dt : ℝ) / 3600)
        if max_speed_kmh < speed_kmh then filterLoop max_speed_kmh prev rest
        else curr :: filterLoop max_speed_kmh curr rest
    | _, _ => curr :: filterLoop max_speed_kmh curr rest

/-- `filter_position_outliers(points, max_speed_kmh)`. -/
noncomputable def filter_position_outliers (points : List Fix)
    (max_speed_kmh : ℝ) : List Fix :=
  if points.length < 2 then points
  else
    match points with
    | [] => []
    | p :: rest => p :: filterLoop max_speed_kmh p rest

/-! ## Quality filter (`filter_by_quality`, src/main.py:566-605) -/

/-- `filter_by_quality(points, hdop_threshold, min_sats, require_fix)`. -/
def filter_by_quality (points : List Fix) (hdop_threshold : ℚ) (min_sats : ℤ)
    (require_fix : Bool) : List Fix :=
  points.filter (fun p =>
    if p.hdop = none ∧ p.sats = none ∧ p.fix = none then true
    else if p.hdop ≠ none ∧ hdop_threshold < p.hdop.getD 0 then false
    else if p.sats ≠ none ∧ p.sats.getD 0 < min_sats then false
    else if require_fix ∧ p.fix ≠ none ∧ p.fix.getD 0 < 1 then false
    else true)

/-! ## Event detection (`detect_stops_and_turns`, src/main.py:607-671) -/

/-- The stop condition at index `i`: speed below 1 knot, coming from a
moving predecessor (`i == 0` never qualifies). -/
def stopFlag (points : List Fix) (i : ℕ) : Bool :=
  decide ((points.getD i default).speed < 1) &&
    (decide (0 < i) && decide (1 ≤ (points.getD (i - 1) default).speed))

/-- The stop-detection loop: indices `0 ≤ i < len` flagged in order. -/
def detect_stops (points : List Fix) : List ℕ :=
  (List.range points.length).filter (stopFlag points)

/-- Does the sliding window ending at `i` satisfy the left-turn conditions
(window mean speed, endpoint headings, ≥ 3 moving samples, cumulative
heading change below `-25`)? Deduplication is not part of this predicate. -/
def turnQualifies (points : List Fix) (i : ℕ) : Bool :=
  let window := (points.drop (i - 10)).take 11
  let avg : ℚ := (window.map Fix.speed).sum / (10 + 1)
  if avg < 5 then false
  else if (points.getD (i - 10) default).heading = none ∨
      (points.getD i default).heading = none then false
  else
    let moving := window.filter (fun p =>
      decide (5 < p.speed) && p.heading.isSome)
    if moving.length < 3 then false
    else
      let h0 : ℚ := ((moving.getD 0 default).heading).getD 0
      let h1 : ℚ := ((moving.getD (moving.length - 1) default).heading).getD 0
      decide (angle_difference h0 h1 < -25)

/-- One step of the turn-detection loop: flag `i` when the window qualifies
and no previously flagged turn index is within 10 of `i`. -/
def turnStep (points : List Fix) (turns : List ℕ) (i : ℕ) : List ℕ :=
  if turnQualifies points i then
    if turns.any (fun t => decide (|(t : ℤ) - (i : ℤ)| < 10)) then turns
    else turns ++ [i]
  else turns

/-- The turn-detection loop: window-end indices `10 ≤ i < len` in order. -/
def detect_turns (points : List Fix) : List ℕ :=
  (List.range' 10 (points.length - 10)).foldl (turnStep points) []

/-- `detect_stops_and_turns(points)`: the two independent scans. -/
def detect_stops_and_turns (points : List Fix) : List ℕ × List ℕ :=
  (detect_stops points, detect_turns points)

/-! ## Duration Estimator (`calculate_trip_duration`, src/main.py:92-128)

Only the recorded-duration value (the printed `duration.total_seconds()`) is
modelled here: the timestamp of the last fix carrying a timestamp minus that
of the first, `none` when either end is missing. The part-5 boundary-gap
heuristic of the source prints a separate estimate no claim depends on. -/

/-- Recorded trip duration in seconds. -/
def calculate_trip_duration (points : List Fix) : Option ℚ :=
  let dts := points.filterMap Fix.datetime
  match dts.head?, dts.getLast? with
  | some start_dt, some finish_dt => some (finish_dt - start_dt)
  | _, _ => none

/-! ## Claim C1 — Coordinate Codec -/

/-- C1: for every numeric rawValue (of the nonnegative `DDDMM.MMMM` form)
and non-empty hemisphere, `parse_nmea_coordinate` returns
`⌊value/100⌋ + (value − 100⌊value/100⌋)/60`, negated exactly when the
hemisphere is `'S'` or `'W'`; `decode("4308.4726","N")` is within `1e-5` of
`43.14121` and `decode("07726.4348","W")` within `1e-5` of `-77.44058`; and
the decoder returns `none` whenever the raw value or hemisphere is empty or
the raw value is not numeric. -/
theorem C1_coordinate_codec :
    (∀ (raw dir : List Char) (q : ℚ), pyFloat? raw = some q → 0 ≤ q →
      dir ≠ [] →
      parse_nmea_coordinate raw dir =
        some ((if dir = ['S'] ∨ dir = ['W'] then (-1 : ℚ) else 1) *
          ((⌊q / 100⌋ : ℚ) + (q - 100 * ⌊q / 100⌋) / 60))) ∧
    (∃ v : ℚ, parse_nmea_coordinate ("4308.4726".toList) ("N".toList) = some v ∧
      |v - 43.14121| ≤ 1 / 100000) ∧
    (∃ v : ℚ, parse_nmea_coordinate ("07726.4348".toList) ("W".toList) = some v ∧
      |v - (-77.44058)| ≤ 1 / 100000) ∧
    (∀ dir, parse_nmea_coordinate [] dir = none) ∧
    (∀ raw, parse_nmea_coordinate raw [] = none) ∧
    (∀ raw dir, pyFloat? raw = none → parse_nmea_coordinate raw dir = none) := by
  refine ⟨?_, ?_, ?_, ?_, ?_, ?_⟩
  · intro raw dir q hq hq0 hdir
    have hraw : raw ≠ [] := by
      rintro rfl
      simp [pyFloat?] at hq
    have htr : ratTrunc (q / 100) = ⌊q / 100⌋ := by
      unfold ratTrunc
      rw [if_pos (by positivity)]
    unfold parse_nmea_coordinate
    rw [if_neg (by simp [hraw, hdir]), hq]
    simp only [htr]
    split
    · congr 1
      ring
    · congr 1
      ring
  · refine ⟨4314121 / 100000, ?_, by norm_num⟩
    simp +decide [parse_nmea_coordinate, pyFloat?, digitsToNat, ratTrunc]
    norm_num
  · refine ⟨-(3872029 / 50000), ?_, by norm_num⟩
    simp +decide [parse_nmea_coordinate, pyFloat?, digitsToNat, ratTrunc]
    norm_num
  · intro dir
    simp [parse_nmea_coordinate]
  · intro raw
    simp [parse_nmea_coordinate]
  · intro raw dir h
    unfold parse_nmea_coordinate
    split
    · rfl
    · rw [h]

/-- C1 witness: the universally quantified part of `C1_coordinate_codec`
applied at the concrete input `("100", "S")`. -/
theorem C1_coordinate_codec_witness :
    parse_nmea_coordinate ("100".toList) ("S".toList) =
      some ((if ("S".toList : List Char) = ['S'] ∨ ("S".toList : List Char) = ['W']
          then (-1 : ℚ) else 1) *
        ((⌊(100 : ℚ) / 100⌋ : ℚ) + ((100 : ℚ) - 100 * ⌊(100 : ℚ) / 100⌋) / 60)) :=
  C1_coordinate_codec.1 _ _ _
    (by simp +decide [pyFloat?, digitsToNat]) (by norm_num) (by decide)

/-! ## Claim C6 — stop detection -/

/-- A fix that only carries a speed (position zero, everything else absent),
for concrete event-detection examples. -/
def fixWithSpeed (s : ℚ) : Fix := ⟨0, 0, s, none, none, none, none, none⟩

/-- The track with speeds `[0.5, 2.0, 0.3, 0.2, 3.0]` from the claim. -/
def stopExample : List Fix :=
  [fixWithSpeed 0.5, fixWithSpeed 2, fixWithSpeed 0.3, fixWithSpeed 0.2,
    fixWithSpeed 3]

/-- C6: index `i` is flagged as a stop iff `i ≥ 1`, `speed[i] < 1` knot and
`speed[i-1] ≥ 1` knot; index `0` is never flagged; and on the track with
speeds `[0.5, 2.0, 0.3, 0.2, 3.0]` exactly one stop is flagged, at index 2. -/
theorem C6_stop_detection :
    (∀ (points : List Fix) (i : ℕ),
      i ∈ detect_stops points ↔
        1 ≤ i ∧ i < points.length ∧ (points.getD i default).speed < 1 ∧
          1 ≤ (points.getD (i - 1) default).speed) ∧
    (∀ points : List Fix, 0 ∉ detect_stops points) ∧
    detect_stops stopExample = [2] := by
  have hmem : ∀ (points : List Fix) (i : ℕ),
      i ∈ detect_stops points ↔
        1 ≤ i ∧ i < points.length ∧ (points.getD i default).speed < 1 ∧
          1 ≤ (points.getD (i - 1) default).speed := by
    intro points i
    simp only [detect_stops, stopFlag, List.mem_filter, List.mem_range,
      Bool.and_eq_true, decide_eq_true_eq]
    constructor
    · rintro ⟨h1, h2, h3, h4⟩
      exact ⟨h3, h1, h2, h4⟩
    · rintro ⟨h1, h2, h3, h4⟩
      exact ⟨h2, h3, h1, h4⟩
  refine ⟨hmem, ?_, ?_⟩
  · intro points h
    have := (hmem points 0).mp h
    omega
  · norm_num [detect_stops, stopExample, fixWithSpeed, stopFlag, List.filter,
      show List.range 5 = [0, 1, 2, 3, 4] from by decide]

/-- C6 witness: the membership characterization of `C6_stop_detection`
instantiated at the concrete track and index 2. -/
theorem C6_stop_detection_witness :
    2 ∈ detect_stops stopExample ↔
      1 ≤ 2 ∧ 2 < stopExample.length ∧
        (stopExample.getD 2 default).speed < 1 ∧
        1 ≤ (stopExample.getD 1 default).speed :=
  C6_stop_detection.1 stopExample 2

/-! ## Claim C9 — recorded duration -/

/-- A fix that only carries a timestamp, for duration examples. -/
def fixAtTime (t : Option ℚ) : Fix := ⟨0, 0, 0, none, t, none, none, none⟩

/-- The claim's track: timestamps only on the first fix
(2021-01-01T00:00:00 = epoch second 1609459200) and the last one
(ten minutes later), with untimestamped fixes in between. -/
def durExample : List Fix :=
  [fixAtTime (some 1609459200), fixAtTime none, fixAtTime none,
    fixAtTime (some 1609459800)]

/-- C9: the recorded duration is the timestamp of the last fix carrying a
timestamp minus that of the first such fix; it is `none` (unavailable, not a
failure) when no fix carries a timestamp; and on the claim's track, whose
only timestamps are 2021-01-01T00:00:00 on the first fix and
2021-01-01T00:10:00 on the last, it is 600 seconds despite the gaps. -/
theorem C9_recorded_duration :
    (∀ (points : List Fix) (s f : ℚ),
      (points.filterMap Fix.datetime).head? = some s →
      (points.filterMap Fix.datetime).getLast? = some f →
      calculate_trip_duration points = some (f - s)) ∧
    (∀ points : List Fix, points.filterMap Fix.datetime = [] →
      calculate_trip_duration points = none) ∧
    calculate_trip_duration durExample = some 600 := by
  refine ⟨?_, ?_, ?_⟩
  · intro points s f hs hf
    simp only [calculate_trip_duration, hs, hf]
  · intro points h
    unfold calculate_trip_duration
    rw [h]
    rfl
  · norm_num [calculate_trip_duration, durExample, fixAtTime, List.filterMap]

/-- C9 witness: the general clause of `C9_recorded_duration` applied to the
concrete track (its two present timestamps differ by 600 seconds). -/
theorem C9_recorded_duration_witness :
    calculate_trip_duration durExample = some (1609459800 - 1609459200) :=
  C9_recorded_duration.1 durExample 1609459200 1609459800
    (by norm_num [durExample, fixAtTime, List.filterMap])
    (by norm_num [durExample, fixAtTime, List.filterMap])

/-! ## Angle normalization lemmas (for C8 and C10) -/

/-- The add-360 loop adds a whole number of turns and lands at a
nonnegative value, below 360 whenever the input is below 360. -/
theorem addLoop_spec (a : ℚ) :
    (∃ k : ℕ, addLoop a = a + 360 * k) ∧ 0 ≤ addLoop a ∧
      (a < 360 → addLoop a < 360) := by
  induction a using addLoop.induct with
  | case1 a h ih =>
    rw [addLoop, if_pos h]
    obtain ⟨⟨k, hk⟩, h0, hlt⟩ := ih
    refine ⟨⟨k + 1, by push_cast at hk ⊢; linarith⟩, h0, fun _ => ?_⟩
    exact hlt (by linarith)
  | case2 a h =>
    rw [addLoop, if_neg h]
    exact ⟨⟨0, by push_cast; ring⟩, by linarith [not_lt.mp h], fun h' => h'⟩

/-- The subtract-360 loop removes a whole number of turns, always lands
below 360, and preserves nonnegativity. -/
theorem subLoop_spec (a : ℚ) :
    (∃ k : ℕ, subLoop a = a - 360 * k) ∧ subLoop a < 360 ∧
      (0 ≤ a → 0 ≤ subLoop a) := by
  induction a using subLoop.induct with
  | case1 a h ih =>
    rw [subLoop, if_pos h]
    obtain ⟨⟨k, hk⟩, hlt, h0⟩ := ih
    exact ⟨⟨k + 1, by push_cast at hk ⊢; linarith⟩, hlt,
      fun _ => h0 (by linarith)⟩
  | case2 a h =>
    rw [subLoop, if_neg h]
    exact ⟨⟨0, by push_cast; ring⟩, by linarith [not_le.mp h], fun h' => h'⟩

/-- `normalize_angle` lands in `[0, 360)` and differs from its input by a
whole number of turns. -/
theorem normalize_angle_spec (a : ℚ) :
    0 ≤ normalize_angle a ∧ normalize_angle a < 360 ∧
      ∃ k : ℤ, normalize_angle a = a + 360 * k := by
  obtain ⟨⟨k₁, hk₁⟩, h0, _⟩ := addLoop_spec a
  obtain ⟨⟨k₂, hk₂⟩, hlt, hpres⟩ := subLoop_spec (addLoop a)
  refine ⟨hpres h0, hlt, ⟨(k₁ : ℤ) - k₂, ?_⟩⟩
  unfold normalize_angle
  rw [hk₂, hk₁]
  push_cast
  ring

/-- Closed form of `normalize_angle`: reduction modulo 360 into `[0, 360)`. -/
theorem normalize_angle_eq_floor (a : ℚ) :
    normalize_angle a = a - 360 * ⌊a / 360⌋ := by
  obtain ⟨h0, hlt, k, hk⟩ := normalize_angle_spec a
  have hfl : ⌊a / 360⌋ = -k := by
    rw [Int.floor_eq_iff]
    constructor
    · rw [le_div_iff₀ (by norm_num : (0:ℚ) < 360)]
      push_cast
      linarith
    · rw [div_lt_iff₀ (by norm_num : (0:ℚ) < 360)]
      push_cast
      linarith
  rw [hfl, hk]
  push_cast
  ring

/-! ## Claim C10 — totality of angle normalization

The claim's termination argument — "each loop iteration moves the value 360
closer to the range" — is valid only in exact arithmetic. The source's loop
variable is an IEEE binary64 double: at magnitude `1e300` adjacent doubles
differ by ≈ 1.6e284, so `1e300 - 360` rounds back to `1e300` and
`while angle >= 360: angle -= 360` makes no progress; `normalize_angle`
therefore hangs on large finite inputs. Such inputs are reachable: a GPRMC
course field `"1e300"` passes `float()`, becomes a heading, and flows into
`angle_difference` during turn detection. This contradicts both the claim
and the program's own promise that processing never hangs. The theorem
below records what exact arithmetic does at that very input: the
idealization terminates and returns the claimed in-range representative,
which shows the divergence is purely the float absorption the idealization
cannot express. -/

/-- C10 (code bug): at the failing input `1e300` — a finite value the
source's `normalize_angle` loops on forever under IEEE double arithmetic —
the exact-rational idealization of the two loops terminates and returns a
value in `[0, 360)` congruent to the input modulo 360, exactly the
behaviour the claim asserts; the claim thus holds of the idealization but
not of the floating-point code. -/
theorem C10_normalize_angle_exact_only :
    0 ≤ normalize_angle ((10 : ℚ) ^ 300) ∧
    normalize_angle ((10 : ℚ) ^ 300) < 360 ∧
    ∃ k : ℤ, normalize_angle ((10 : ℚ) ^ 300) = (10 : ℚ) ^ 300 + 360 * k :=
  normalize_angle_spec ((10 : ℚ) ^ 300)

/-! ## Claim C8 — signed angular difference range -/

/-- C8 counterexample: the claim puts `angle_difference` in the half-open
interval `(-180, 180]`, but `angle_difference(180, 0)` is exactly `-180`,
which that interval excludes. -/
theorem C8_counterexample :
    angle_difference 180 0 = -180 ∧ ¬ (-180 < angle_difference 180 0) := by
  have h : angle_difference 180 0 = -180 := by
    rw [angle_difference, normalize_angle_eq_floor, normalize_angle_eq_floor]
    norm_num
  exact ⟨h, by rw [h]; norm_num⟩

/-- C8 (amended): for every pair of headings, `angle_difference` returns a
value in the closed interval `[-180, 180]` — the shortest signed angular
difference via modulo-360 normalization of both headings and the ±360 wrap
correction; the boundary value `-180` is attainable, so the interval cannot
be half-open on the left. -/
theorem C8_angle_difference_range :
    ∀ prev curr : ℚ, -180 ≤ angle_difference prev curr ∧
      angle_difference prev curr ≤ 180 := by
  intro prev curr
  obtain ⟨hp0, hp1, -⟩ := normalize_angle_spec prev
  obtain ⟨hc0, hc1, -⟩ := normalize_angle_spec curr
  simp only [angle_difference]
  split_ifs with h1 h2 <;> constructor <;> linarith

/-! ## Claim C2 — Sentence Recovery -/

/-- Each marker occurrence start paired with the next occurrence start
(`none` for the last occurrence). -/
def occPairs (ms : List ℕ) : List (ℕ × Option ℕ) :=
  ms.zip ((ms.drop 1).map some ++ [none])

/-- The claim's substring for one occurrence: from its start to the next
occurrence's start (exclusive) with trailing `'*'` stripped, or from its
start to end-of-line for the last occurrence. -/
def claimSeg (line : List Char) : ℕ × Option ℕ → List Char
  | (p, some q) => rstripStar ((line.drop p).take (q - p))
  | (p, none) => line.drop p

/-- The Sentence Recovery claim exactly as written: for `k ≥ 2` occurrences
the result is the per-occurrence substrings themselves, dropping those that
are empty after whitespace trimming (but keeping the survivors untrimmed). -/
def claimSplitStrict (line : List Char) : List (List Char) :=
  let ms := markerPositions line
  if ms.length = 1 then [line]
  else if 2 ≤ ms.length then
    ((occPairs ms).map (claimSeg line)).filter (fun s => decide (pyStrip s ≠ []))
  else [line]

/-- `splitSegs` produces exactly the claim's per-occurrence substrings,
each whitespace-trimmed, with empty ones dropped. -/
theorem splitSegs_eq_claim (line : List Char) :
    ∀ ms : List ℕ, splitSegs line ms =
      ((occPairs ms).map (fun pr => pyStrip (claimSeg line pr))).filter
        (fun s => decide (s ≠ [])) := by
  intro ms
  induction ms with
  | nil => rfl
  | cons p rest ih =>
    match rest, ih with
    | [], _ =>
      simp only [splitSegs, occPairs, List.drop, List.map, List.zip,
        List.zipWith, List.filter, claimSeg, List.nil_append]
      split
      · next h => simp [h]
      · next h => simp [h]
    | q :: rest', ih =>
      have hop : occPairs (p :: q :: rest') = (p, some q) :: occPairs (q :: rest') := rfl
      rw [splitSegs, hop, List.map_cons, List.filter_cons, ih]
      split
      · next h => simp [claimSeg, h]
      · next h => simp [claimSeg, h]

/-- C2 counterexample: on the concrete line `"$GPRMC,x $GPGGA"` (markers at
offsets 0 and 9) the code trims the kept substrings, so its first element
is `"$GPRMC,x"` while the claim's substring-by-spans description keeps the
trailing space (`"$GPRMC,x "`). -/
theorem C2_counterexample :
    split_double_sentences ("$GPRMC,x $GPGGA".toList) ≠
      claimSplitStrict ("$GPRMC,x $GPGGA".toList) := by decide

/-- C2 (amended): a line with exactly one marker occurrence (and likewise a
line with none) is returned unchanged as a single-element sequence; with
`k ≥ 2` occurrences, the result is one substring per occurrence — substring
`j` spanning occurrence `j`'s start up to occurrence `j+1`'s start
(exclusive) with trailing `'*'` stripped, the last substring spanning to
end-of-line — where each substring is whitespace-trimmed and dropped if
empty after trimming. -/
theorem C2_sentence_recovery (line : List Char) :
    ((markerPositions line).length = 1 → split_double_sentences line = [line]) ∧
    ((markerPositions line).length = 0 → split_double_sentences line = [line]) ∧
    (2 ≤ (markerPositions line).length →
      split_double_sentences line =
        ((occPairs (markerPositions line)).map
          (fun pr => pyStrip (claimSeg line pr))).filter
            (fun s => decide (s ≠ []))) := by
  refine ⟨?_, ?_, ?_⟩
  · intro h
    simp [split_double_sentences, h]
  · intro h
    simp [split_double_sentences, h]
  · intro h
    have h1 : (markerPositions line).length ≠ 1 := by omega
    simp only [split_double_sentences, if_neg h1, if_pos h]
    exact splitSegs_eq_claim line (markerPositions line)

/-- C2 witness: the one-marker clause of `C2_sentence_recovery` on the
concrete single-sentence line `"$GPRMC,a,b"`, and the `k ≥ 2` clause on the
concrete double line `"$GPRMC,x $GPGGA"`. -/
theorem C2_sentence_recovery_witness :
    split_double_sentences ("$GPRMC,a,b".toList) = [("$GPRMC,a,b".toList)] ∧
    split_double_sentences ("$GPRMC,x $GPGGA".toList) =
      ((occPairs (markerPositions ("$GPRMC,x $GPGGA".toList))).map
        (fun pr => pyStrip (claimSeg ("$GPRMC,x $GPGGA".toList) pr))).filter
          (fun s => decide (s ≠ [])) :=
  ⟨(C2_sentence_recovery _).1 (by decide),
    (C2_sentence_recovery _).2.2 (by decide)⟩

/-! ## Claim C3 — kind-A decoder failure modes -/

/-- C3: `parse_gprmc` yields `none` exactly when the sentence has fewer
than 10 comma-separated fields, or field 2 is not the validity flag `'A'`,
or any of time / latitude / latitude hemisphere / longitude / longitude
hemisphere / date is empty, or the Coordinate Codec fails on either
coordinate; on success the fix's speed is the parsed speed field defaulting
to 0 when empty or unparseable, its heading is the parsed course field
(absent when empty or unparseable), and its timestamp is whatever the
date-time combination yields (absent on failure) — none of these three
field failures fails the record. -/
theorem C3_gprmc_failure_modes (stp : List Char → Option ℚ)
    (line : List Char) :
    (parse_gprmc stp line = none ↔
      (splitComma (pyStrip line)).length < 10 ∨
      (splitComma (pyStrip line)).getD 2 [] ≠ ['A'] ∨
      (splitComma (pyStrip line)).getD 1 [] = [] ∨
      (splitComma (pyStrip line)).getD 3 [] = [] ∨
      (splitComma (pyStrip line)).getD 4 [] = [] ∨
      (splitComma (pyStrip line)).getD 5 [] = [] ∨
      (splitComma (pyStrip line)).getD 6 [] = [] ∨
      (splitComma (pyStrip line)).getD 9 [] = [] ∨
      parse_nmea_coordinate ((splitComma (pyStrip line)).getD 3 [])
        ((splitComma (pyStrip line)).getD 4 []) = none ∨
      parse_nmea_coordinate ((splitComma (pyStrip line)).getD 5 [])
        ((splitComma (pyStrip line)).getD 6 []) = none) ∧
    (∀ d : Fix, parse_gprmc stp line = some d →
      d.speed = (pyFloat? ((splitComma (pyStrip line)).getD 7 [])).getD 0 ∧
      d.heading = pyFloat? ((splitComma (pyStrip line)).getD 8 []) ∧
      d.datetime = stp ((splitComma (pyStrip line)).getD 9 [] ++
        ((splitComma (pyStrip line)).getD 1 []).takeWhile (fun c => c ≠ '.')) ∧
      d.hdop = none ∧ d.sats = none ∧ d.fix = none) := by
  simp only [parse_gprmc]
  by_cases h1 : (splitComma (pyStrip line)).length < 10 ∨
      (splitComma (pyStrip line)).getD 2 [] ≠ ['A']
  · rw [if_pos h1]
    refine ⟨⟨fun _ => ?_, fun _ => rfl⟩, fun d hd => by cases hd⟩
    tauto
  · rw [if_neg h1]
    rw [not_or] at h1
    by_cases h2 : (splitComma (pyStrip line)).getD 1 [] = [] ∨
        (splitComma (pyStrip line)).getD 3 [] = [] ∨
        (splitComma (pyStrip line)).getD 4 [] = [] ∨
        (splitComma (pyStrip line)).getD 5 [] = [] ∨
        (splitComma (pyStrip line)).getD 6 [] = [] ∨
        (splitComma (pyStrip line)).getD 9 [] = []
    · rw [if_pos h2]
      refine ⟨⟨fun _ => ?_, fun _ => rfl⟩, fun d hd => by cases hd⟩
      tauto
    · rw [if_neg h2]
      rw [not_or, not_or, not_or, not_or, not_or] at h2
      rcases hlat : parse_nmea_coordinate ((splitComma (pyStrip line)).getD 3 [])
          ((splitComma (pyStrip line)).getD 4 []) with - | lat <;>
        rcases hlon : parse_nmea_coordinate ((splitComma (pyStrip line)).getD 5 [])
          ((splitComma (pyStrip line)).getD 6 []) with - | lon
      · exact ⟨⟨fun _ => Or.inr (Or.inr (Or.inr (Or.inr (Or.inr (Or.inr
            (Or.inr (Or.inr (Or.inl rfl)))))))), fun _ => rfl⟩,
          fun d hd => Option.noConfusion hd⟩
      · exact ⟨⟨fun _ => Or.inr (Or.inr (Or.inr (Or.inr (Or.inr (Or.inr
            (Or.inr (Or.inr (Or.inl rfl)))))))), fun _ => rfl⟩,
          fun d hd => Option.noConfusion hd⟩
      · exact ⟨⟨fun _ => Or.inr (Or.inr (Or.inr (Or.inr (Or.inr (Or.inr
            (Or.inr (Or.inr (Or.inr rfl)))))))), fun _ => rfl⟩,
          fun d hd => Option.noConfusion hd⟩
      · refine ⟨⟨fun h => Option.noConfusion h, fun h => ?_⟩, fun d hd => ?_⟩
        · exfalso
          rcases h with h | h | h | h | h | h | h | h | h | h
          · exact h1.1 h
          · exact h1.2 h
          · exact h2.1 h
          · exact h2.2.1 h
          · exact h2.2.2.1 h
          · exact h2.2.2.2.1 h
          · exact h2.2.2.2.2.1 h
          · exact h2.2.2.2.2.2 h
          · cases h
          · cases h
        · simp only [Option.some.injEq] at hd
          subst hd
          exact ⟨rfl, rfl, rfl, rfl, rfl, rfl⟩

/-- C3 witness: the success clause of `C3_gprmc_failure_modes` on the
concrete sentence `"$GPRMC,1,A,2.3,N,4.5,E,,,6"` (empty speed field → speed
0, empty course → absent heading, failing date-time combination → absent
timestamp), with `stp` constantly failing. -/
theorem C3_gprmc_failure_modes_witness :
    (⟨23 / 600, 3 / 40, 0, none, none, none, none, none⟩ : Fix).speed =
      (pyFloat? ((splitComma (pyStrip ("$GPRMC,1,A,2.3,N,4.5,E,,,6".toList))).getD 7 [])).getD 0 ∧
    (⟨23 / 600, 3 / 40, 0, none, none, none, none, none⟩ : Fix).heading =
      pyFloat? ((splitComma (pyStrip ("$GPRMC,1,A,2.3,N,4.5,E,,,6".toList))).getD 8 []) ∧
    (⟨23 / 600, 3 / 40, 0, none, none, none, none, none⟩ : Fix).datetime =
      (fun _ => (none : Option ℚ))
        ((splitComma (pyStrip ("$GPRMC,1,A,2.3,N,4.5,E,,,6".toList))).getD 9 [] ++
          ((splitComma (pyStrip ("$GPRMC,1,A,2.3,N,4.5,E,,,6".toList))).getD 1 []).takeWhile
            (fun c => c ≠ '.')) ∧
    (⟨23 / 600, 3 / 40, 0, none, none, none, none, none⟩ : Fix).hdop = none ∧
    (⟨23 / 600, 3 / 40, 0, none, none, none, none, none⟩ : Fix).sats = none ∧
    (⟨23 / 600, 3 / 40, 0, none, none, none, none, none⟩ : Fix).fix = none :=
  (C3_gprmc_failure_modes (fun _ => none) ("$GPRMC,1,A,2.3,N,4.5,E,,,6".toList)).2
    ⟨23 / 600, 3 / 40, 0, none, none, none, none, none⟩
    (by
      simp +decide [parse_gprmc, splitComma, pyStrip, isPySpace, pyFloat?,
        digitsToNat, ratTrunc, parse_nmea_coordinate]
      norm_num)

/-! ## Claim C4 — Track Ingestor invariant -/

/-- The fragment cursor of the scan is the fold of `ggaStep` over the
sentences, regardless of accumulated points. -/
theorem scanFrom_lastGga (stp : List Char → Option ℚ) :
    ∀ (sents : List (List Char)) (st : ScanState),
      (scanFrom stp st sents).lastGga = sents.foldl ggaStep st.lastGga := by
  intro sents
  induction sents with
  | nil => intro st; rfl
  | cons s rest ih =>
    intro st
    rw [scanFrom, List.foldl_cons, List.foldl_cons]
    rw [show List.foldl (processSentence stp) (processSentence stp st s) rest =
      scanFrom stp (processSentence stp st s) rest from rfl]
    rw [ih (processSentence stp st s)]
    congr 1
    simp only [processSentence, ggaStep]
    split_ifs with hrmc hgga
    · split <;> rfl
    · split <;> rfl
    · rfl

/-- A fix freshly decoded by `parse_gprmc` carries no quality fields. -/
theorem parse_gprmc_quality_none (stp : List Char → Option ℚ) (s : List Char)
    (d : Fix) (h : parse_gprmc stp s = some d) :
    d.hdop = none ∧ d.sats = none ∧ d.fix = none := by
  simp only [parse_gprmc] at h
  split_ifs at h
  split at h
  · injection h with h'
    subst h'
    exact ⟨rfl, rfl, rfl⟩
  · exact Option.noConfusion h

/-- C4: during one file scan, processing a successfully decoded GPRMC
sentence appends exactly one fix, merged (via `mergeLast`) with the most
recent GPGGA fragment of the strictly earlier sentences; a failed GPRMC
decode, or any non-GPRMC sentence, appends nothing; the merge overwrites
only hdop/sats/fix-quality and never lat/lon/speed/heading/timestamp; with
no earlier fragment the appended fix carries no quality fields (a fresh
decode has none and `mergeLast` is the identity there); and `read_gps_file`
is exactly this scan over the recovered sentences of the file's lines. -/
theorem C4_ingestor_invariant :
    (∀ (stp : List Char → Option ℚ) (pre : List (List Char)) (s : List Char)
        (d : Fix), startsWithChars ("$GPRMC".toList) s = true →
      parse_gprmc stp s = some d →
      (scanFrom stp ⟨[], none⟩ (pre ++ [s])).points =
        (scanFrom stp ⟨[], none⟩ pre).points ++ [mergeLast d (lastGoodGga pre)]) ∧
    (∀ (stp : List Char → Option ℚ) (pre : List (List Char)) (s : List Char),
      startsWithChars ("$GPRMC".toList) s = true → parse_gprmc stp s = none →
      (scanFrom stp ⟨[], none⟩ (pre ++ [s])).points =
        (scanFrom stp ⟨[], none⟩ pre).points) ∧
    (∀ (stp : List Char → Option ℚ) (pre : List (List Char)) (s : List Char),
      startsWithChars ("$GPRMC".toList) s = false →
      (scanFrom stp ⟨[], none⟩ (pre ++ [s])).points =
        (scanFrom stp ⟨[], none⟩ pre).points) ∧
    (∀ (d : Fix) (g : Gga),
      (mergeQuality d g).lat = d.lat ∧ (mergeQuality d g).lon = d.lon ∧
      (mergeQuality d g).speed = d.speed ∧
      (mergeQuality d g).heading = d.heading ∧
      (mergeQuality d g).datetime = d.datetime ∧
      (mergeQuality d g).hdop = g.hdop ∧
      (mergeQuality d g).sats = some g.sats ∧
      (mergeQuality d g).fix = some g.fix) ∧
    (∀ (stp : List Char → Option ℚ) (s : List Char) (d : Fix),
      parse_gprmc stp s = some d →
      d.hdop = none ∧ d.sats = none ∧ d.fix = none) ∧
    (∀ d : Fix, mergeLast d none = d) ∧
    (∀ (stp : List Char → Option ℚ) (lines : List (List Char)),
      read_gps_file stp lines =
        (scanFrom stp ⟨[], none⟩ (extractSentences lines)).points) := by
  refine ⟨?_, ?_, ?_,
    fun d g => ⟨rfl, rfl, rfl, rfl, rfl, rfl, rfl, rfl⟩,
    parse_gprmc_quality_none, fun d => rfl, fun stp lines => rfl⟩
  · intro stp pre s d hs hp
    rw [scanFrom, List.foldl_append, List.foldl_cons, List.foldl_nil]
    rw [show List.foldl (processSentence stp) ⟨[], none⟩ pre =
      scanFrom stp ⟨[], none⟩ pre from rfl]
    rw [processSentence, if_pos hs, hp]
    rw [show lastGoodGga pre = (scanFrom stp ⟨[], none⟩ pre).lastGga from
      (scanFrom_lastGga stp pre ⟨[], none⟩).symm]
  · intro stp pre s hs hp
    rw [scanFrom, List.foldl_append, List.foldl_cons, List.foldl_nil]
    rw [show List.foldl (processSentence stp) ⟨[], none⟩ pre =
      scanFrom stp ⟨[], none⟩ pre from rfl]
    rw [processSentence, if_pos hs, hp]
  · intro stp pre s hs
    rw [scanFrom, List.foldl_append, List.foldl_cons, List.foldl_nil]
    rw [show List.foldl (processSentence stp) ⟨[], none⟩ pre =
      scanFrom stp ⟨[], none⟩ pre from rfl]
    rw [processSentence, if_neg (by rw [hs]; exact fun h => Bool.noConfusion h)]
    split
    · split <;> rfl
    · rfl

/-- C4 witness: the append clause of `C4_ingestor_invariant` on a concrete
two-sentence scan — a GPGGA fragment followed by a GPRMC sentence — with a
constantly failing date-time parser. -/
theorem C4_ingestor_invariant_witness :
    (scanFrom (fun _ => none) ⟨[], none⟩
        ([("$GPGGA,t,2.3,N,4.5,E,1,05,1.8,x".toList)] ++
          [("$GPRMC,1,A,2.3,N,4.5,E,,,6".toList)])).points =
      (scanFrom (fun _ => none) ⟨[], none⟩
        [("$GPGGA,t,2.3,N,4.5,E,1,05,1.8,x".toList)]).points ++
      [mergeLast ⟨23 / 600, 3 / 40, 0, none, none, none, none, none⟩
        (lastGoodGga [("$GPGGA,t,2.3,N,4.5,E,1,05,1.8,x".toList)])] :=
  C4_ingestor_invariant.1 (fun _ => none)
    [("$GPGGA,t,2.3,N,4.5,E,1,05,1.8,x".toList)]
    ("$GPRMC,1,A,2.3,N,4.5,E,,,6".toList)
    ⟨23 / 600, 3 / 40, 0, none, none, none, none, none⟩
    (by decide)
    (by
      simp +decide [parse_gprmc, splitComma, pyStrip, isPySpace, pyFloat?,
        digitsToNat, ratTrunc, parse_nmea_coordinate]
      norm_num)

/-! ## Claim C5 — outlier rejection is idempotent -/

/-- The acceptance condition the outlier filter enforces between a point
and its accepted predecessor: whenever both carry timestamps, the elapsed
time is strictly positive and the implied great-circle speed does not
exceed the ceiling (pairs with a missing timestamp are always accepted). -/
def outlierAccept (max_speed_kmh : ℝ) (p q : Fix) : Prop :=
  ∀ tp tc : ℚ, p.datetime = some tp → q.datetime = some tc →
    0 < tc - tp ∧
      haversine_distance p.lat p.lon q.lat q.lon / (((tc - tp : ℚ) : ℝ) / 3600) ≤
        max_speed_kmh

/-- Every adjacent pair of the loop's output — including the pair formed
with the initial accepted predecessor — satisfies the acceptance
condition. -/
theorem filterLoop_chain (c : ℝ) :
    ∀ (l : List Fix) (prev : Fix),
      List.Chain' (outlierAccept c) (prev :: filterLoop c prev l) := by
  intro l
  induction l with
  | nil => intro prev; simp [filterLoop]
  | cons curr rest ih =>
    intro prev
    rw [filterLoop]
    rcases hp : prev.datetime with - | tp <;> rcases hc : curr.datetime with - | tc
    · exact List.chain'_cons.mpr ⟨fun tp tc h _ => absurd (hp ▸ h) (by simp), ih curr⟩
    · exact List.chain'_cons.mpr ⟨fun tp tc h _ => absurd (hp ▸ h) (by simp), ih curr⟩
    · exact List.chain'_cons.mpr ⟨fun tp tc _ h => absurd (hc ▸ h) (by simp), ih curr⟩
    · simp only []
      split_ifs with h1 h2
      · exact ih prev
      · exact ih prev
      · refine List.chain'_cons.mpr ⟨?_, ih curr⟩
        intro tp' tc' hp' hc'
        rw [hp] at hp'
        rw [hc] at hc'
        injection hp' with hp'
        injection hc' with hc'
        subst hp'
        subst hc'
        exact ⟨by push_neg at h1; exact h1, not_lt.mp h2⟩

/-- On a list whose adjacent pairs (from the given predecessor on) already
satisfy the acceptance condition, the loop keeps everything. -/
theorem filterLoop_of_chain (c : ℝ) :
    ∀ (l : List Fix) (prev : Fix),
      List.Chain' (outlierAccept c) (prev :: l) → filterLoop c prev l = l := by
  intro l
  induction l with
  | nil => intro prev _; rfl
  | cons curr rest ih =>
    intro prev hch
    obtain ⟨hacc, htail⟩ := List.chain'_cons.mp hch
    rw [filterLoop]
    rcases hp : prev.datetime with - | tp <;> rcases hc : curr.datetime with - | tc
    · rw [ih curr htail]
    · rw [ih curr htail]
    · rw [ih curr htail]
    · obtain ⟨hpos, hle⟩ := hacc tp tc hp hc
      simp only []
      rw [if_neg (by simpa using hpos), if_neg (by simpa using hle),
        ih curr htail]

/-- C5: applying `filter_position_outliers` twice yields the same list as
applying it once; equivalently, in the output every adjacent pair in which
both points carry timestamps has strictly positive elapsed time and implied
great-circle speed not exceeding the ceiling. -/
theorem C5_outlier_idempotent (points : List Fix) (c : ℝ) :
    filter_position_outliers (filter_position_outliers points c) c =
      filter_position_outliers points c ∧
    List.Chain' (outlierAccept c) (filter_position_outliers points c) := by
  match points with
  | [] => exact ⟨rfl, by simp [filter_position_outliers]⟩
  | [p] => exact ⟨rfl, by simp [filter_position_outliers]⟩
  | p :: q :: rest =>
    have hlen : ¬ (p :: q :: rest).length < 2 := by simp
    have hout : filter_position_outliers (p :: q :: rest) c =
        p :: filterLoop c p (q :: rest) := by
      rw [filter_position_outliers, if_neg hlen]
    have hchain : List.Chain' (outlierAccept c) (p :: filterLoop c p (q :: rest)) :=
      filterLoop_chain c (q :: rest) p
    refine ⟨?_, by rw [hout]; exact hchain⟩
    rw [hout]
    rcases hl : filterLoop c p (q :: rest) with - | ⟨x, xs⟩
    · rfl
    · have hlen2 : ¬ (p :: x :: xs).length < 2 := by simp
      rw [filter_position_outliers, if_neg hlen2]
      rw [hl] at hchain
      rw [filterLoop_of_chain c (x :: xs) p hchain]

/-- C5 witness: `C5_outlier_idempotent` at a concrete two-point track and
the default 200 km/h ceiling. -/
theorem C5_outlier_idempotent_witness :
    filter_position_outliers
        (filter_position_outliers [fixAtTime none, fixAtTime (some 1)] 200) 200 =
      filter_position_outliers [fixAtTime none, fixAtTime (some 1)] 200 :=
  (C5_outlier_idempotent [fixAtTime none, fixAtTime (some 1)] 200).1

/-! ## Claim C7 — turn deduplication -/

/-- A fix with a speed and a heading (position zero, the rest absent), for
concrete turn-detection examples. -/
def fixSH (s h : ℚ) : Fix := ⟨0, 0, s, some h, none, none, none, none⟩

/-- A 14-sample track at 10 knots whose headings make the turn windows
ending at indices 10 and 13 — exactly 3 apart — both satisfy the left-turn
threshold (cumulative change −30°), while those at 11 and 12 do not. -/
def turnExample : List Fix :=
  [fixSH 10 100, fixSH 10 70, fixSH 10 70, fixSH 10 100, fixSH 10 70,
   fixSH 10 70, fixSH 10 70, fixSH 10 70, fixSH 10 70, fixSH 10 70,
   fixSH 10 70, fixSH 10 70, fixSH 10 70, fixSH 10 70]

theorem angle_difference_100_70 : angle_difference 100 70 = -30 := by
  simp only [angle_difference, normalize_angle_eq_floor]
  norm_num

theorem angle_difference_70_70 : angle_difference 70 70 = 0 := by
  simp only [angle_difference, normalize_angle_eq_floor]
  norm_num

theorem turnExample_q10 : turnQualifies turnExample 10 = true := by
  norm_num [turnQualifies, turnExample, fixSH, List.filter,
    angle_difference_100_70]
  exact ⟨Option.some_ne_none _, Option.some_ne_none _⟩

theorem turnExample_q11 : turnQualifies turnExample 11 = false := by
  norm_num [turnQualifies, turnExample, fixSH, List.filter,
    angle_difference_70_70]

theorem turnExample_q12 : turnQualifies turnExample 12 = false := by
  norm_num [turnQualifies, turnExample, fixSH, List.filter,
    angle_difference_70_70]

theorem turnExample_q13 : turnQualifies turnExample 13 = true := by
  norm_num [turnQualifies, turnExample, fixSH, List.filter,
    angle_difference_100_70]
  exact ⟨Option.some_ne_none _, Option.some_ne_none _⟩

theorem turnExample_detect : detect_turns turnExample = [10] := by
  have hlen : turnExample.length = 14 := by norm_num [turnExample]
  rw [detect_turns, hlen]
  rw [show List.range' 10 (14 - 10) = [10, 11, 12, 13] from by decide]
  rw [List.foldl_cons, List.foldl_cons, List.foldl_cons, List.foldl_cons,
    List.foldl_nil]
  rw [show turnStep turnExample [] 10 = [10] from by
    rw [turnStep, if_pos turnExample_q10]; rfl]
  rw [show turnStep turnExample [10] 11 = [10] from by
    rw [turnStep]; rw [turnExample_q11]; rfl]
  rw [show turnStep turnExample [10] 12 = [10] from by
    rw [turnStep]; rw [turnExample_q12]; rfl]
  rw [show turnStep turnExample [10] 13 = [10] from by
    rw [turnStep, if_pos turnExample_q13, if_pos (by decide)]]

/-- Any fold of `turnStep` preserves pairwise 10-separation of the flagged
indices: a new index is only appended when no already flagged index lies
within 10 of it. -/
theorem turnFold_pairwise (points : List Fix) :
    ∀ (idxs : List ℕ) (turns : List ℕ),
      List.Pairwise (fun a b : ℕ => (10 : ℤ) ≤ |(a : ℤ) - (b : ℤ)|) turns →
      List.Pairwise (fun a b : ℕ => (10 : ℤ) ≤ |(a : ℤ) - (b : ℤ)|)
        (idxs.foldl (turnStep points) turns) := by
  intro idxs
  induction idxs with
  | nil => exact fun turns h => h
  | cons i rest ih =>
    intro turns h
    rw [List.foldl_cons]
    apply ih
    rw [turnStep]
    split_ifs with hq hany
    · exact h
    · rw [List.pairwise_append]
      refine ⟨h, List.pairwise_singleton _ _, ?_⟩
      intro a ha b hb
      rw [List.mem_singleton] at hb
      subst hb
      simp only [List.any_eq_true, decide_eq_true_eq, not_exists] at hany
      push_neg at hany
      exact hany a ha
    · exact h

/-- C7: a left-turn event is flagged at window-end index `i` only when no
previously flagged turn index `t` satisfies `|t − i| < 10` (such a step
leaves the flagged list unchanged); consequently any two flagged turn
indices differ by at least 10; and on a track where the window positions 10
and 13 — three apart — both satisfy the turn threshold, exactly one event
is flagged, at the earlier qualifying index 10. -/
theorem C7_turn_dedup :
    (∀ (points : List Fix) (turns : List ℕ) (i : ℕ),
      (∃ t ∈ turns, |(t : ℤ) - (i : ℤ)| < 10) →
        turnStep points turns i = turns) ∧
    (∀ points : List Fix,
      List.Pairwise (fun a b : ℕ => (10 : ℤ) ≤ |(a : ℤ) - (b : ℤ)|)
        (detect_turns points)) ∧
    turnQualifies turnExample 10 = true ∧
    turnQualifies turnExample 13 = true ∧
    detect_turns turnExample = [10] := by
  refine ⟨?_, ?_, turnExample_q10, turnExample_q13, turnExample_detect⟩
  · intro points turns i hex
    rw [turnStep]
    split_ifs with hq hany
    · rfl
    · exfalso
      apply hany
      obtain ⟨t, ht, hlt⟩ := hex
      rw [List.any_eq_true]
      exact ⟨t, ht, decide_eq_true hlt⟩
    · rfl
  · intro points
    exact turnFold_pairwise points _ [] (List.Pairwise.nil)

/-- C7 witness: the suppression clause of `C7_turn_dedup` at the concrete
state where index 10 is already flagged and the window at 13 qualifies. -/
theorem C7_turn_dedup_witness :
    turnStep turnExample [10] 13 = [10] :=
  C7_turn_dedup.1 turnExample [10] 13
    ⟨10, List.mem_singleton_self 10, by norm_num⟩

end GPS
